import Mathlib

/-!
Shallow embedding of `src/tiny_emitter.py` (the `TinyEmitter` class).

The Python broker keeps three dictionaries:
  * `_callbacks : Dict[str, List[Callable]]` — callbacks per event name;
  * `_instances : Dict[str, List[object]]`  — enrolled instances per class name;
  * `_classes   : Dict[str, object]`        — registered listener classes per name.

Python `dict`s preserve insertion order and have unique keys; they are
embedded as association lists with `lookupKey` / `setKey` / `eraseKey`
(update-in-place for an existing key, append for a new one, as a dict does).

Python objects that matter to the broker are embedded as records:
  * a callback is a `PyObj` carrying its `__qualname__`, an identity used by
    `list.remove` (Python `==` on functions is identity), its callability
    (`callable(cb)`) and its truthiness (`bool(cb)`, used by
    `on`'s `return on(callback) if callback else on` line);
  * a class is a `PyClass` carrying its `__qualname__` and the set of its
    attribute names that are `staticmethod`s (what
    `inspect.getattr_static(cls, name)` is tested for in `_is_static_method`);
  * an instance is an `Inst` carrying `type(instance).__name__` and an
    identity.

Invoking a callback is recorded as a `CallEvent` (the callback plus the
exact positional and keyword arguments it receives); `_emit` returns the
ordered trace of such events.  Raising a Python exception is embedded as
`Except.error` with a `PyError` naming the Python exception class; the
early `return` that `_emit` performs when a bound callback's class is not
registered is a normal return (`Except.ok` with the trace so far), exactly
as in the source.  The body of an invoked callback is opaque to the broker
and is not modelled (the trace records the call itself); the partial trace
preceding a raised exception is not observable through `Except.error`.
-/

/-- A Python object as the broker sees it: `__qualname__`, identity
(Python `==` on functions/objects defaults to identity), callability and
truthiness. -/
structure PyObj where
  uid : Nat
  qualname : String
  isCallable : Bool
  isTruthy : Bool
deriving DecidableEq, Repr

/-- A listener class: its `__qualname__` and the names of its attributes
that are declared `staticmethod`. -/
structure PyClass where
  qualname : String
  staticMethods : List String
deriving DecidableEq, Repr

/-- An instance of some class: `type(instance).__name__` plus an identity
(Python `list.remove` compares with `==`, default identity). -/
structure Inst where
  className : String
  uid : Nat
deriving DecidableEq, Repr

/-- A value passed to a callback: an opaque emitted argument, an enrolled
instance, or a bare string (kwarg keys leak as positional strings through
`callback(instance, *args, *kwargs)`). -/
inductive Val where
  | obj (n : Nat)
  | inst (i : Inst)
  | str (s : String)
deriving DecidableEq, Repr

/-- The Python exception class raised by an operation. -/
inductive PyError where
  | typeError
  | keyError
  | valueError
deriving DecidableEq, Repr

/-- One invocation of a callback: the callback and the exact positional and
keyword arguments it receives. -/
structure CallEvent where
  cb : PyObj
  posArgs : List Val
  kwArgs : List (String × Val)
deriving DecidableEq, Repr

deriving instance DecidableEq for Except

/-- Python `s.split(".")` on the characters of `s`: accumulate the current
chunk (reversed) and cut at every dot.  `"".split(".")` is `[""]` and a
dot-free string yields a single chunk, as in Python. -/
def pySplitDotAux : List Char → List Char → List String
  | [], acc => [String.mk acc.reverse]
  | c :: rest, acc =>
    if c = '.' then String.mk acc.reverse :: pySplitDotAux rest []
    else pySplitDotAux rest (c :: acc)

/-- Python `s.split(".")`. -/
def pySplitDot (s : String) : List String :=
  pySplitDotAux s.data []

namespace TinyEmitter

/-- `m[k]` lookup in an insertion-ordered dict embedded as an assoc list. -/
def lookupKey {α : Type} : List (String × α) → String → Option α
  | [], _ => none
  | p :: rest, k => if p.1 = k then some p.2 else lookupKey rest k

/-- `m[k] = v`: update in place if the key exists, else append (dict
insertion-order semantics). -/
def setKey {α : Type} : List (String × α) → String → α → List (String × α)
  | [], k, v => [(k, v)]
  | p :: rest, k, v => if p.1 = k then (k, v) :: rest else p :: setKey rest k v

/-- `del m[k]`: drop the (first) binding of `k`. -/
def eraseKey {α : Type} : List (String × α) → String → List (String × α)
  | [], _ => []
  | p :: rest, k => if p.1 = k then rest else p :: eraseKey rest k

/-- The broker's state: the three dictionaries set up by `__init__`. -/
structure EmitterState where
  callbacks : List (String × List PyObj)
  instances : List (String × List Inst)
  classes : List (String × PyClass)
deriving DecidableEq, Repr

/-- `TinyEmitter.__init__`: all three dictionaries start empty. -/
def init : EmitterState := ⟨[], [], []⟩

/-- `TinyEmitter._is_static_method(class_object, function_name)`:
`isinstance(inspect.getattr_static(class_object, function_name), staticmethod)`.
The embedding assumes `function_name` is an attribute of the class (true for
callbacks registered with the decorator pattern the module is built around). -/
def is_static_method (cls : PyClass) (functionName : String) : Bool :=
  cls.staticMethods.contains functionName

/-- Outcome of dispatching one callback inside `_emit`'s loop: a list of
invocations to perform, the early `return` taken when the owning class is
unregistered, or a raised exception. -/
inductive StepResult where
  | events (es : List CallEvent)
  | abortReturn
  | raised (e : PyError)
deriving DecidableEq, Repr

/-- `r` is the normal outcome (some list of invocations). -/
def StepResult.isEvents : StepResult → Bool
  | .events _ => true
  | _ => false

/-- The body of `_emit`'s `for callback in self._callbacks[event]` loop for
one callback:
  * `full_function_name.split(".")` (embedded as `pySplitDot`) with one part — a regular function,
    `callback(*args, **kwargs)`;
  * two parts — a class function: early `return` if the class is not in
    `self._classes`; `callback(*args, **kwargs)` if static; otherwise one
    call per instance, `callback(instance, *args, *kwargs)` — note the
    single `*` on `kwargs` in the source, which unpacks the dict's KEYS as
    extra positional arguments and drops the values;
  * three or more parts — the two-name unpacking of `split(".")` raises
    `ValueError`. -/
def dispatchOne (st : EmitterState) (instances : Option (List Inst))
    (args : List Val) (kwargs : List (String × Val)) (cb : PyObj) : StepResult :=
  match pySplitDot cb.qualname with
  | [_] => .events [⟨cb, args, kwargs⟩]
  | [className, functionName] =>
    match lookupKey st.classes className with
    | none => .abortReturn
    | some cls =>
      if is_static_method cls functionName then
        .events [⟨cb, args, kwargs⟩]
      else
        match instances with
        | some lst =>
          .events (lst.map fun i => ⟨cb, Val.inst i :: (args ++ kwargs.map fun p => Val.str p.1), []⟩)
        | none =>
          match lookupKey st.instances className with
          | none => .raised .keyError
          | some lst =>
            .events (lst.map fun i => ⟨cb, Val.inst i :: (args ++ kwargs.map fun p => Val.str p.1), []⟩)
  | _ => .raised .valueError

/-- `_emit`'s loop over the callback list: concatenates the invocation
traces; `abortReturn` returns normally with the trace so far; a raised
exception propagates. -/
def emitAux (st : EmitterState) (instances : Option (List Inst))
    (args : List Val) (kwargs : List (String × Val)) :
    List PyObj → Except PyError (List CallEvent)
  | [] => .ok []
  | cb :: rest =>
    match dispatchOne st instances args kwargs cb with
    | .raised e => .error e
    | .abortReturn => .ok []
    | .events es =>
      match emitAux st instances args kwargs rest with
      | .ok tr => .ok (es ++ tr)
      | .error e => .error e

/-- `TinyEmitter._emit(event, instances, *args, **kwargs)`: no-op if the
event has no callbacks, else run the dispatch loop. -/
def _emit (st : EmitterState) (event : String) (instances : Option (List Inst))
    (args : List Val) (kwargs : List (String × Val)) : Except PyError (List CallEvent) :=
  match lookupKey st.callbacks event with
  | none => .ok []
  | some cbs => emitAux st instances args kwargs cbs

/-- `TinyEmitter.emit(event, *args, **kwargs) = _emit(event, None, ...)`. -/
def emit (st : EmitterState) (event : String)
    (args : List Val) (kwargs : List (String × Val)) : Except PyError (List CallEvent) :=
  _emit st event none args kwargs

/-- `TinyEmitter.emit_instances(event, instances, *args, **kwargs)
= _emit(event, instances, ...)`. -/
def emit_instances (st : EmitterState) (event : String) (instances : List Inst)
    (args : List Val) (kwargs : List (String × Val)) : Except PyError (List CallEvent) :=
  _emit st event (some instances) args kwargs

/-- What `TinyEmitter.on` returns: the original callback (direct mode) or
the inner registration closure (decorator-factory mode). -/
inductive OnResult where
  | registered (cb : PyObj)
  | decoratorFactory
deriving DecidableEq, Repr

/-- The inner `on(callback)` closure of `TinyEmitter.on`: `TypeError` if the
argument is not callable, else append it to the event's list (creating the
list on first registration) and return the callback unchanged. -/
def onInner (st : EmitterState) (event : String) (cb : PyObj) :
    Except PyError (EmitterState × PyObj) :=
  if !cb.isCallable then .error .typeError
  else
    let prev := match lookupKey st.callbacks event with
      | none => []
      | some lst => lst
    .ok ({ st with callbacks := setKey st.callbacks event (prev ++ [cb]) }, cb)

/-- `TinyEmitter.on(event, callback=None)`:
`return on(callback) if callback else on` — a truthy argument is registered
directly, a falsy one (including `None`) selects decorator-factory mode. -/
def on' (st : EmitterState) (event : String) (callback : Option PyObj) :
    Except PyError (EmitterState × OnResult) :=
  match callback with
  | some cb =>
    if cb.isTruthy then
      match onInner st event cb with
      | .ok (st1, c) => .ok (st1, .registered c)
      | .error e => .error e
    else .ok (st, .decoratorFactory)
  | none => .ok (st, .decoratorFactory)

/-- `TinyEmitter.off(event, callback)`:
`self._callbacks[event].remove(callback)` (KeyError on an unknown event,
ValueError when the callback is absent, else drop the first occurrence),
then delete the event key if its list became empty. -/
def off (st : EmitterState) (event : String) (cb : PyObj) :
    Except PyError EmitterState :=
  match lookupKey st.callbacks event with
  | none => .error .keyError
  | some lst =>
    if cb ∈ lst then
      let lst' := lst.erase cb
      if lst' = [] then .ok { st with callbacks := eraseKey st.callbacks event }
      else .ok { st with callbacks := setKey st.callbacks event lst' }
    else .error .valueError

/-- `TinyEmitter.unlisten(instance)`:
`self._instances[type(instance).__name__].remove(instance)` — KeyError on an
unknown class name, ValueError when the instance is not enrolled, else drop
the first occurrence. -/
def unlisten (st : EmitterState) (i : Inst) : Except PyError EmitterState :=
  match lookupKey st.instances i.className with
  | none => .error .keyError
  | some lst =>
    if i ∈ lst then
      .ok { st with instances := setKey st.instances i.className (lst.erase i) }
    else .error .valueError

/-- `TinyEmitter.listener(listener_class)`: record the class under its
`__qualname__` and reset its instance list to empty (replacement semantics);
the source also patches `__init__`, whose enrollment step is `listener_init`. -/
def listener (st : EmitterState) (c : PyClass) : EmitterState :=
  { st with
      classes := setKey st.classes c.qualname c,
      instances := setKey st.instances c.qualname [] }

/-- The enrollment step of the patched `__init__` installed by `listener`:
`self._instances[class_name] += [inner_self]` after the original `__init__`
ran (KeyError if the captured class name is no longer a key). -/
def listener_init (st : EmitterState) (className : String) (i : Inst) :
    Except PyError EmitterState :=
  match lookupKey st.instances className with
  | none => .error .keyError
  | some lst =>
    .ok { st with instances := setKey st.instances className (lst ++ [i]) }

/-- The state effect of the wrapper returned by `TinyEmitter.finalizer`:
after the wrapped method runs (its body is opaque to the broker), attempt
`self.unlisten(_self)` and swallow `ValueError` and `KeyError`. -/
def finalizer (st : EmitterState) (i : Inst) : Except PyError EmitterState :=
  match unlisten st i with
  | .ok st1 => .ok st1
  | .error .valueError => .ok st
  | .error .keyError => .ok st
  | .error e => .error e

/-- The invocations a single callback contributes during dispatch (empty on
the abort and exception outcomes). -/
def eventsOf (st : EmitterState) (instances : Option (List Inst))
    (args : List Val) (kwargs : List (String × Val)) (cb : PyObj) : List CallEvent :=
  match dispatchOne st instances args kwargs cb with
  | .events es => es
  | _ => []

/-- The invocation a bound (non-static class member) callback performs on
one receiver: `callback(instance, *args, *kwargs)` — the instance prepended,
then the positional arguments, then the kwarg KEYS as positional strings,
and no keyword arguments at all. -/
def mkBoundCall (cb : PyObj) (args : List Val) (kwargs : List (String × Val))
    (i : Inst) : CallEvent :=
  ⟨cb, Val.inst i :: (args ++ kwargs.map fun p => Val.str p.1), []⟩

/-- `cb` dispatches as Unbound in state `st`: a free function (no dot in its
qualified name) or a static member of a registered class. -/
def isUnbound (st : EmitterState) (cb : PyObj) : Bool :=
  match pySplitDot cb.qualname with
  | [_] => true
  | [className, functionName] =>
    match lookupKey st.classes className with
    | some cls => is_static_method cls functionName
    | none => false
  | _ => false

/-- A sequence of Callback Registry operations: `on` (either mode) or `off`. -/
inductive RegOp where
  | opOn (event : String) (callback : Option PyObj)
  | opOff (event : String) (callback : PyObj)
deriving DecidableEq, Repr

/-- Run one registry operation; a raised exception leaves the state
unchanged (both `on` and `off` raise before mutating anything). -/
def applyOp (st : EmitterState) : RegOp → EmitterState
  | .opOn e cb =>
    match on' st e cb with
    | .ok (st1, _) => st1
    | .error _ => st
  | .opOff e cb =>
    match off st e cb with
    | .ok st1 => st1
    | .error _ => st

/-- Run a sequence of registry operations. -/
def applyOps (st : EmitterState) (ops : List RegOp) : EmitterState :=
  ops.foldl applyOp st

/-- The Callback Registry invariant: no event key maps to an empty list. -/
def noEmptyEventLists (st : EmitterState) : Prop :=
  ∀ p ∈ st.callbacks, p.2 ≠ []

section Lemmas

theorem isEvents_eq_true {r : StepResult} :
    r.isEvents = true ↔ ∃ es, r = .events es := by
  cases r <;> simp [StepResult.isEvents]

theorem eventsOf_events {st io a k cb es}
    (h : dispatchOne st io a k cb = .events es) :
    eventsOf st io a k cb = es := by
  simp [eventsOf, h]

/-- Every invocation produced while dispatching `cb` is an invocation of
`cb` itself. -/
theorem cb_of_mem_eventsOf {st io a k cb} :
    ∀ ev ∈ eventsOf st io a k cb, ev.cb = cb := by
  intro ev hev
  unfold eventsOf dispatchOne at hev
  rcases hsp : pySplitDot cb.qualname with _ | ⟨c1, _ | ⟨c2, _ | _⟩⟩ <;>
    rw [hsp] at hev <;> simp at hev
  · rw [hev]
  · rcases hcl : lookupKey st.classes c1 with _ | cls <;> rw [hcl] at hev <;>
      simp at hev
    by_cases hst : is_static_method cls c2
    · simp [hst] at hev
      rw [hev]
    · simp [hst] at hev
      rcases io with _ | lst
      · rcases hi : lookupKey st.instances c1 with _ | lst' <;>
          rw [hi] at hev <;> simp at hev
        obtain ⟨i, _, hi2⟩ := hev
        rw [← hi2]
      · simp at hev
        obtain ⟨i, _, hi2⟩ := hev
        rw [← hi2]

/-- When every callback in the list dispatches normally, `_emit`'s loop
returns the concatenation of the per-callback invocation traces, in list
order. -/
theorem emitAux_ok (st : EmitterState) (io : Option (List Inst)) (a : List Val)
    (k : List (String × Val)) (cbs : List PyObj)
    (h : ∀ c ∈ cbs, (dispatchOne st io a k c).isEvents = true) :
    emitAux st io a k cbs = .ok (cbs.flatMap (eventsOf st io a k)) := by
  induction cbs with
  | nil => simp [emitAux]
  | cons cb rest ih =>
    obtain ⟨es, hes⟩ := isEvents_eq_true.mp (h cb (List.mem_cons_self _ _))
    have ih' := ih fun c hc => h c (List.mem_cons_of_mem _ hc)
    simp [emitAux, hes, ih', List.flatMap_cons, eventsOf_events hes]

/-- When every callback before `cb` dispatches normally and `cb` hits the
unregistered-class early return, the loop returns normally with exactly the
invocations of the callbacks before `cb`. -/
theorem emitAux_abort (st : EmitterState) (io : Option (List Inst)) (a : List Val)
    (k : List (String × Val)) (pre : List PyObj) (cb : PyObj) (post : List PyObj)
    (hpre : ∀ c ∈ pre, (dispatchOne st io a k c).isEvents = true)
    (hcb : dispatchOne st io a k cb = .abortReturn) :
    emitAux st io a k (pre ++ cb :: post) = .ok (pre.flatMap (eventsOf st io a k)) := by
  induction pre with
  | nil => simp [emitAux, hcb]
  | cons c rest ih =>
    obtain ⟨es, hes⟩ := isEvents_eq_true.mp (hpre c (List.mem_cons_self _ _))
    have ih' := ih fun c' hc' => hpre c' (List.mem_cons_of_mem _ hc')
    simp only [List.cons_append, emitAux, hes, List.append_eq, ih',
      List.flatMap_cons, eventsOf_events hes]

/-- When every callback before `cb` dispatches normally and dispatching `cb`
raises, the whole loop raises that exception. -/
theorem emitAux_raised (st : EmitterState) (io : Option (List Inst)) (a : List Val)
    (k : List (String × Val)) (pre : List PyObj) (cb : PyObj) (post : List PyObj)
    (e : PyError)
    (hpre : ∀ c ∈ pre, (dispatchOne st io a k c).isEvents = true)
    (hcb : dispatchOne st io a k cb = .raised e) :
    emitAux st io a k (pre ++ cb :: post) = .error e := by
  induction pre with
  | nil => simp [emitAux, hcb]
  | cons c rest ih =>
    obtain ⟨es, hes⟩ := isEvents_eq_true.mp (hpre c (List.mem_cons_self _ _))
    have ih' := ih fun c' hc' => hpre c' (List.mem_cons_of_mem _ hc')
    simp only [List.cons_append, emitAux, hes, List.append_eq, ih']

/-- Filtering a dispatch trace down to the invocations of one callback
keeps one copy of that callback's contribution per occurrence in the list. -/
theorem filter_flatMap_owner (f : PyObj → List CallEvent) (cb : PyObj)
    (h : ∀ c, ∀ ev ∈ f c, ev.cb = c) (cbs : List PyObj) :
    (cbs.flatMap f).filter (fun ev => ev.cb == cb)
      = (List.replicate (cbs.count cb) (f cb)).flatten := by
  induction cbs with
  | nil => simp
  | cons c rest ih =>
    rw [List.flatMap_cons, List.filter_append, ih]
    by_cases hc : c = cb
    · subst hc
      rw [List.count_cons_self, List.replicate_succ, List.flatten_cons]
      congr 1
      refine List.filter_eq_self.mpr fun ev hev => ?_
      simp [h c ev hev]
    · rw [List.count_cons_of_ne (by exact fun hcc => hc hcc.symm)]
      have : (f c).filter (fun ev => ev.cb == cb) = [] := by
        refine List.filter_eq_nil_iff.mpr fun ev hev => ?_
        simp [h c ev hev, hc]
      rw [this, List.nil_append]

theorem flatten_replicate_singleton {α : Type} (n : Nat) (e : α) :
    (List.replicate n [e]).flatten = List.replicate n e := by
  induction n with
  | zero => simp
  | succ n ih => simp [List.replicate_succ, ih]

/-- An Unbound callback (free function or static member of a registered
class) dispatches to a single invocation carrying exactly the emitted
positional and keyword arguments. -/
theorem dispatchOne_unbound {st : EmitterState} {cb : PyObj}
    (io : Option (List Inst)) (a : List Val) (k : List (String × Val))
    (h : isUnbound st cb = true) :
    dispatchOne st io a k cb = .events [⟨cb, a, k⟩] := by
  unfold isUnbound at h
  unfold dispatchOne
  rcases hsp : pySplitDot cb.qualname with _ | ⟨c1, _ | ⟨c2, _ | _⟩⟩ <;>
    rw [hsp] at h <;> simp_all
  rcases hcl : lookupKey st.classes c1 with _ | cls <;> rw [hcl] at h <;> simp_all

/-- A Bound callback with the receiver set supplied explicitly dispatches
to one invocation per supplied instance, in list order. -/
theorem dispatchOne_bound_explicit {st : EmitterState} {cb : PyObj}
    {cn fn : String} {cls : PyClass} (L : List Inst) (a : List Val)
    (k : List (String × Val))
    (hsp : pySplitDot cb.qualname = [cn, fn])
    (hcl : lookupKey st.classes cn = some cls)
    (hst : is_static_method cls fn = false) :
    dispatchOne st (some L) a k cb = .events (L.map (mkBoundCall cb a k)) := by
  simp [dispatchOne, hsp, hcl, hst, mkBoundCall]

/-- A Bound callback with no explicit receiver set dispatches to one
invocation per enrolled instance of its class, in enrollment order. -/
theorem dispatchOne_bound_enrolled {st : EmitterState} {cb : PyObj}
    {cn fn : String} {cls : PyClass} {M : List Inst} (a : List Val)
    (k : List (String × Val))
    (hsp : pySplitDot cb.qualname = [cn, fn])
    (hcl : lookupKey st.classes cn = some cls)
    (hst : is_static_method cls fn = false)
    (hin : lookupKey st.instances cn = some M) :
    dispatchOne st none a k cb = .events (M.map (mkBoundCall cb a k)) := by
  simp [dispatchOne, hsp, hcl, hst, hin, mkBoundCall]

/-- A class-member callback whose class was never registered hits the
early `return`. -/
theorem dispatchOne_unregistered {st : EmitterState} {cb : PyObj}
    {cn fn : String} (io : Option (List Inst)) (a : List Val)
    (k : List (String × Val))
    (hsp : pySplitDot cb.qualname = [cn, fn])
    (hcl : lookupKey st.classes cn = none) :
    dispatchOne st io a k cb = .abortReturn := by
  simp [dispatchOne, hsp, hcl]

/-- A callback whose qualified name splits into three or more parts makes
the two-name unpacking raise `ValueError`. -/
theorem dispatchOne_nested {st : EmitterState} {cb : PyObj}
    {c1 c2 c3 : String} {rest : List String} (io : Option (List Inst))
    (a : List Val) (k : List (String × Val))
    (hsp : pySplitDot cb.qualname = c1 :: c2 :: c3 :: rest) :
    dispatchOne st io a k cb = .raised .valueError := by
  simp [dispatchOne, hsp]

theorem lookupKey_eq_none {α : Type} {m : List (String × α)} {k : String}
    (h : k ∉ m.map Prod.fst) : lookupKey m k = none := by
  induction m with
  | nil => rfl
  | cons p rest ih =>
    simp only [List.map_cons, List.mem_cons, not_or] at h
    rw [lookupKey, if_neg fun hh => h.1 hh.symm]
    exact ih h.2

theorem lookupKey_setKey_self {α : Type} (m : List (String × α)) (k : String)
    (v : α) : lookupKey (setKey m k v) k = some v := by
  induction m with
  | nil => simp [setKey, lookupKey]
  | cons p rest ih =>
    by_cases h : p.1 = k
    · simp [setKey, h, lookupKey]
    · simp [setKey, h, lookupKey, ih]

theorem lookupKey_eraseKey_self {α : Type} {m : List (String × α)} {k : String}
    (hnd : (m.map Prod.fst).Nodup) : lookupKey (eraseKey m k) k = none := by
  induction m with
  | nil => rfl
  | cons p rest ih =>
    simp only [List.map_cons, List.nodup_cons] at hnd
    by_cases h : p.1 = k
    · rw [eraseKey, if_pos h]
      exact lookupKey_eq_none (h ▸ hnd.1)
    · rw [eraseKey, if_neg h, lookupKey, if_neg h]
      exact ih hnd.2

theorem mem_setKey {α : Type} {m : List (String × α)} {k : String} {v : α}
    {p : String × α} (h : p ∈ setKey m k v) : p = (k, v) ∨ p ∈ m := by
  induction m with
  | nil =>
    simp only [setKey, List.mem_singleton] at h
    exact Or.inl h
  | cons q rest ih =>
    by_cases hq : q.1 = k
    · rw [setKey, if_pos hq] at h
      rcases List.mem_cons.mp h with h1 | h2
      · exact Or.inl h1
      · exact Or.inr (List.mem_cons_of_mem _ h2)
    · rw [setKey, if_neg hq] at h
      rcases List.mem_cons.mp h with h1 | h2
      · exact Or.inr (h1 ▸ List.mem_cons_self _ _)
      · rcases ih h2 with h3 | h4
        · exact Or.inl h3
        · exact Or.inr (List.mem_cons_of_mem _ h4)

theorem mem_eraseKey {α : Type} {m : List (String × α)} {k : String}
    {p : String × α} (h : p ∈ eraseKey m k) : p ∈ m := by
  induction m with
  | nil => cases h
  | cons q rest ih =>
    by_cases hq : q.1 = k
    · rw [eraseKey, if_pos hq] at h
      exact List.mem_cons_of_mem _ h
    · rw [eraseKey, if_neg hq] at h
      rcases List.mem_cons.mp h with h1 | h2
      · exact h1 ▸ List.mem_cons_self _ _
      · exact List.mem_cons_of_mem _ (ih h2)

/-- A list whose `erase` of a member is empty is that singleton. -/
theorem eq_singleton_of_erase_eq_nil {l : List PyObj} {a : PyObj}
    (hm : a ∈ l) (he : l.erase a = []) : l = [a] := by
  cases l with
  | nil => cases hm
  | cons b t =>
    rw [List.erase_cons] at he
    by_cases hb : b = a
    · subst hb
      simp only [beq_self_eq_true, if_true] at he
      rw [he]
    · simp [hb] at he

/-- `unlisten` only ever raises `KeyError` or `ValueError`. -/
theorem unlisten_error_cases {st : EmitterState} {i : Inst} {e : PyError}
    (h : unlisten st i = .error e) : e = .keyError ∨ e = .valueError := by
  unfold unlisten at h
  split at h
  · exact Or.inl (Except.error.inj h).symm
  · split at h
    · cases h
    · exact Or.inr (Except.error.inj h).symm

/-- The finalizer wrapper never raises: the unenroll attempt's failures are
swallowed. -/
theorem finalizer_ok (st : EmitterState) (i : Inst) :
    ∃ st', finalizer st i = .ok st' := by
  unfold finalizer
  cases hu : unlisten st i with
  | ok st1 => exact ⟨st1, rfl⟩
  | error e =>
    rcases unlisten_error_cases hu with rfl | rfl
    · exact ⟨st, rfl⟩
    · exact ⟨st, rfl⟩

/-- The two possible outcomes of an `on` step on the state: unchanged (a
falsy argument, decorator-factory mode, or a `TypeError`) or one callback
appended to the event's list. -/
theorem applyOp_opOn (st : EmitterState) (e : String) (c : Option PyObj) :
    applyOp st (.opOn e c) = st ∨
    ∃ cb prev, applyOp st (.opOn e c) =
      { st with callbacks := setKey st.callbacks e (prev ++ [cb]) } := by
  cases c with
  | none => exact Or.inl rfl
  | some cb =>
    by_cases ht : cb.isTruthy
    · by_cases hc : cb.isCallable
      · right
        refine ⟨cb, (match lookupKey st.callbacks e with
          | none => []
          | some lst => lst), ?_⟩
        simp [applyOp, on', onInner, ht, hc]
      · left
        simp [applyOp, on', onInner, ht, hc]
    · left
      simp [applyOp, on', ht]

/-- The three possible outcomes of an `off` step on the state: unchanged
(a raised `KeyError`/`ValueError`), the event's list replaced by a nonempty
erasure, or the event key deleted. -/
theorem applyOp_opOff (st : EmitterState) (e : String) (c : PyObj) :
    applyOp st (.opOff e c) = st ∨
    (∃ lst : List PyObj, applyOp st (.opOff e c) =
        { st with callbacks := setKey st.callbacks e (lst.erase c) } ∧
      lst.erase c ≠ []) ∨
    applyOp st (.opOff e c) = { st with callbacks := eraseKey st.callbacks e } := by
  rcases hl : lookupKey st.callbacks e with _ | lst
  · left
    simp [applyOp, off, hl]
  · by_cases hm : c ∈ lst
    · by_cases hnil : lst.erase c = []
      · right; right
        simp [applyOp, off, hl, hm, hnil]
      · right; left
        exact ⟨lst, by simp [applyOp, off, hl, hm, hnil], hnil⟩
    · left
      simp [applyOp, off, hl, hm]

/-- One `on`/`off` step keeps every registered event's list nonempty. -/
theorem applyOp_no_empty (st : EmitterState) (op : RegOp)
    (h : noEmptyEventLists st) : noEmptyEventLists (applyOp st op) := by
  cases op with
  | opOn e cb =>
    rcases applyOp_opOn st e cb with heq | ⟨c, prev, heq⟩
    · rw [heq]
      exact h
    · rw [heq]
      intro p hp
      rcases mem_setKey hp with h1 | h2
      · rw [h1]
        simp
      · exact h p h2
  | opOff e cb =>
    rcases applyOp_opOff st e cb with heq | ⟨lst, heq, hnil⟩ | heq
    · rw [heq]
      exact h
    · rw [heq]
      intro p hp
      rcases mem_setKey hp with h1 | h2
      · rw [h1]
        exact hnil
      · exact h p h2
    · rw [heq]
      intro p hp
      exact h p (mem_eraseKey hp)

/-- Emitting with every callback of the event dispatching normally returns
the ordered concatenation of the per-callback traces. -/
theorem emit_ok_of_normal (st : EmitterState) (E : String) (a : List Val)
    (k : List (String × Val)) (cbs : List PyObj)
    (hLk : lookupKey st.callbacks E = some cbs)
    (hNorm : ∀ c ∈ cbs, (dispatchOne st none a k c).isEvents = true) :
    emit st E a k = .ok (cbs.flatMap (eventsOf st none a k)) := by
  unfold emit _emit
  rw [hLk]
  exact emitAux_ok st none a k cbs hNorm

/-- Emitting an event with no registered callbacks is a normal no-op. -/
theorem emit_unknown_event (st : EmitterState) (E : String) (a : List Val)
    (k : List (String × Val)) (h : lookupKey st.callbacks E = none) :
    emit st E a k = .ok [] := by
  unfold emit _emit
  rw [h]

end Lemmas

end TinyEmitter

open TinyEmitter

/-! Concrete fixtures used by counterexamples and witnesses. -/

/-- A free function `g` (no dot in its qualified name). -/
def freeG : PyObj := ⟨1, "g", true, true⟩

/-- A member callback `Foo.m` of a class that is never registered. -/
def boundFooM : PyObj := ⟨2, "Foo.m", true, true⟩

/-- A free function `h`, registered after `Foo.m`. -/
def freeH : PyObj := ⟨3, "h", true, true⟩

/-- State with `evt ↦ [g, Foo.m, h]` and no registered listener classes. -/
def stUnreg : EmitterState := ⟨[("evt", [freeG, boundFooM, freeH])], [], []⟩

/-- A non-static member callback `W.m`. -/
def cbWm : PyObj := ⟨10, "W.m", true, true⟩

/-- A static member callback `W.s`. -/
def cbWs : PyObj := ⟨11, "W.s", true, true⟩

/-- Enrolled instances of the listener class `W`. -/
def w1 : Inst := ⟨"W", 1⟩

/-- A second enrolled instance of `W`. -/
def w2 : Inst := ⟨"W", 2⟩

/-- The listener class `W`, whose attribute `s` is a `staticmethod`. -/
def classW : PyClass := ⟨"W", ["s"]⟩

/-- State: `tick ↦ [W.m]`, class `W` registered, one enrolled instance. -/
def stWorker : EmitterState :=
  ⟨[("tick", [cbWm])], [("W", [w1])], [("W", classW)]⟩

/-- State: `tick ↦ [g, W.s, W.m]`, class `W` registered, two enrolled
instances. -/
def stOrder : EmitterState :=
  ⟨[("tick", [freeG, cbWs, cbWm])], [("W", [w1, w2])], [("W", classW)]⟩

/-- A callback defined inside another function:
`__qualname__ = "outer.<locals>.inner"` splits into three parts. -/
def cbNested : PyObj := ⟨30, "outer.<locals>.inner", true, true⟩

/-- State with the nested-function callback registered under `evt`. -/
def stNested : EmitterState := ⟨[("evt", [cbNested])], [], []⟩

/-- A falsy, non-callable Python object (e.g. the int `0`). -/
def falsyZero : PyObj := ⟨0, "int", false, false⟩

/-! The claims. -/

/-- Claim C1, counterexample: with `evt ↦ [g, Foo.m, h]` and class `Foo`
never registered, `emit("evt")` returns normally (`Except.ok`, i.e. no
exception is raised), with only `g`'s invocation in the trace.  This
falsifies the claim's "the emit call raises UnregisteredListenerTypeError":
the source logs an error and executes a plain `return`.  (The claim's other
half — nothing after `Foo.m` runs — is visible here too: `h` is absent.) -/
theorem emit_unregistered_listener_no_raise :
    emit stUnreg "evt" [] [] = .ok [⟨freeG, [], []⟩] := by decide

/-- Claim C1, amended: emitting an event whose callback list contains a
member callback of an unregistered class makes `_emit` log an error and
return normally — no exception is raised — after invoking exactly the
callbacks registered before it; that callback and every later one
contribute no invocation. -/
theorem emit_unregistered_listener_aborts
    (st : EmitterState) (E : String) (a : List Val) (k : List (String × Val))
    (pre post : List PyObj) (cb : PyObj) (cn fn : String)
    (hLk : lookupKey st.callbacks E = some (pre ++ cb :: post))
    (hSplit : pySplitDot cb.qualname = [cn, fn])
    (hCls : lookupKey st.classes cn = none)
    (hPre : ∀ c ∈ pre, (dispatchOne st none a k c).isEvents = true) :
    emit st E a k = .ok (pre.flatMap (eventsOf st none a k)) ∧
      ∀ ev ∈ pre.flatMap (eventsOf st none a k), ev.cb ∈ pre := by
  constructor
  · unfold emit _emit
    rw [hLk]
    exact emitAux_abort st none a k pre cb post hPre
      (dispatchOne_unregistered none a k hSplit hCls)
  · intro ev hev
    obtain ⟨c, hc, hevc⟩ := List.mem_flatMap.mp hev
    exact cb_of_mem_eventsOf ev hevc ▸ hc

/-- Witness for the amended C1 at the concrete fixture. -/
theorem emit_unregistered_listener_aborts_witness :
    lookupKey stUnreg.callbacks "evt" = some ([freeG] ++ boundFooM :: [freeH]) ∧
    pySplitDot boundFooM.qualname = ["Foo", "m"] ∧
    lookupKey stUnreg.classes "Foo" = none ∧
    (emit stUnreg "evt" [] [] = .ok ([freeG].flatMap (eventsOf stUnreg none [] [])) ∧
      ∀ ev ∈ [freeG].flatMap (eventsOf stUnreg none [] []), ev.cb ∈ [freeG]) :=
  ⟨by decide, by decide, by decide,
    emit_unregistered_listener_aborts stUnreg "evt" [] [] [freeG] [freeH]
      boundFooM "Foo" "m" (by decide) (by decide) (by decide) (by decide)⟩

/-- Claim C2 (code bug, evaluated at the failing input): with class `W`
registered, its non-static member `W.m` bound to `tick`, and one enrolled
instance, `emit("tick", x=1)` invokes `W.m` with the instance prepended but
passes the kwarg KEY `"x"` as an extra positional argument and drops the
value — `callback(w1, "x")` instead of the claimed `callback(w1, x=1)`.
The source line is `callback(instance, *args, *kwargs)`: a single `*`
unpacks the dict's keys; its siblings use `**kwargs`, and the docstring
promises the keyword argument dictionary is passed through. -/
theorem emit_bound_kwargs_dropped :
    emit stWorker "tick" [] [("x", Val.obj 1)]
      = .ok [⟨cbWm, [Val.inst w1, Val.str "x"], []⟩] := by decide

/-- Claim C3: in any emit in which every registered callback of the event
dispatches normally, an Unbound callback (free function or static member of
a registered class) is invoked exactly once per registered occurrence, each
invocation receiving exactly the emitted positional and keyword arguments
with nothing prepended. -/
theorem emit_unbound_invoked_once
    (st : EmitterState) (E : String) (a : List Val) (k : List (String × Val))
    (cbs : List PyObj) (cb : PyObj)
    (hLk : lookupKey st.callbacks E = some cbs)
    (hNorm : ∀ c ∈ cbs, (dispatchOne st none a k c).isEvents = true)
    (hUb : isUnbound st cb = true) :
    ∃ tr, emit st E a k = .ok tr ∧
      tr.filter (fun ev => ev.cb == cb) = List.replicate (cbs.count cb) ⟨cb, a, k⟩ := by
  refine ⟨cbs.flatMap (eventsOf st none a k), ?_, ?_⟩
  · unfold emit _emit
    rw [hLk]
    exact emitAux_ok st none a k cbs hNorm
  · rw [filter_flatMap_owner _ cb (fun c ev hev => cb_of_mem_eventsOf ev hev) cbs,
      eventsOf_events (dispatchOne_unbound none a k hUb)]
    exact flatten_replicate_singleton _ _

/-- Witness for C3: the free function `g` and the static method `W.s` each
fire exactly once with the emitted argument. -/
theorem emit_unbound_invoked_once_witness :
    lookupKey stOrder.callbacks "tick" = some [freeG, cbWs, cbWm] ∧
    isUnbound stOrder cbWs = true ∧
    ∃ tr, emit stOrder "tick" [Val.obj 7] [] = .ok tr ∧
      tr.filter (fun ev => ev.cb == cbWs)
        = List.replicate ([freeG, cbWs, cbWm].count cbWs) ⟨cbWs, [Val.obj 7], []⟩ :=
  ⟨by decide, by decide,
    emit_unbound_invoked_once stOrder "tick" [Val.obj 7] [] [freeG, cbWs, cbWm]
      cbWs (by decide) (by decide) (by decide)⟩

/-- Claim C8 (code bug, evaluated at the failing input): `on` with a falsy
non-callable argument (Python `0`) does not raise `TypeError` — because the
mode test is `if callback` rather than `if callback is not None`, the call
silently returns the inner decorator function and registers nothing,
contradicting the docstring ("Raises TypeError ... when the callback
argument is not callable"; "If the callback argument is None, operation
mode 1 is assumed"). -/
theorem on_falsy_noncallable_not_rejected :
    on' init "evt" (some falsyZero) = .ok (init, OnResult.decoratorFactory) := by
  decide

/-- Claim C9: the finalizer wrapper never raises, on any state and any
instance: after the wrapped method runs, the unenroll attempt's
`ValueError`/`KeyError` is swallowed, so calling it twice on the same
instance — or on an instance that was never enrolled — is not an error. -/
theorem finalizer_wrapped_call_idempotent (st : EmitterState) (i : Inst) :
    ∃ st1 st2, finalizer st i = .ok st1 ∧ finalizer st1 i = .ok st2 := by
  obtain ⟨st1, h1⟩ := finalizer_ok st i
  obtain ⟨st2, h2⟩ := finalizer_ok st1 i
  exact ⟨st1, st2, h1, h2⟩

/-- Claim C10: a registered callback whose qualified name has more than two
dot-separated parts (e.g. a function nested inside another,
`outer.<locals>.inner`) is dispatched as neither Unbound nor Bound: the
two-name unpacking of `split(".")` raises an unhandled `ValueError`,
aborting the whole emit call. -/
theorem emit_nested_qualname_raises
    (st : EmitterState) (E : String) (a : List Val) (k : List (String × Val))
    (pre post : List PyObj) (cb : PyObj)
    (hLk : lookupKey st.callbacks E = some (pre ++ cb :: post))
    (hLen : 2 < (pySplitDot cb.qualname).length)
    (hPre : ∀ c ∈ pre, (dispatchOne st none a k c).isEvents = true) :
    emit st E a k = .error .valueError := by
  obtain ⟨c1, c2, c3, r, hsp⟩ :
      ∃ c1 c2 c3 r, pySplitDot cb.qualname = c1 :: c2 :: c3 :: r := by
    rcases hq : pySplitDot cb.qualname with _ | ⟨x, _ | ⟨y, _ | ⟨z, r⟩⟩⟩ <;>
      rw [hq] at hLen
    · simp at hLen
    · simp at hLen
    · simp at hLen
    · exact ⟨x, y, z, r, rfl⟩
  unfold emit _emit
  rw [hLk]
  exact emitAux_raised st none a k pre cb post _ hPre
    (dispatchOne_nested none a k hsp)

/-- Claim C4: with callbacks registered under `E` in the order
`[c1, c2, c3]` and every callback dispatching normally, an emit produces
`c1`'s invocations, then `c2`'s, then `c3`'s; and a Bound callback's
invocations are its enrolled-instance list mapped in enrollment order. -/
theorem emit_registration_order
    (st : EmitterState) (E : String) (a : List Val) (k : List (String × Val))
    (c1 c2 c3 : PyObj)
    (hLk : lookupKey st.callbacks E = some [c1, c2, c3])
    (hNorm : ∀ c ∈ [c1, c2, c3], (dispatchOne st none a k c).isEvents = true) :
    emit st E a k = .ok (eventsOf st none a k c1 ++ eventsOf st none a k c2
        ++ eventsOf st none a k c3) ∧
      ∀ (cb : PyObj) (cn fn : String) (cls : PyClass) (M : List Inst),
        pySplitDot cb.qualname = [cn, fn] →
        lookupKey st.classes cn = some cls → is_static_method cls fn = false →
        lookupKey st.instances cn = some M →
        eventsOf st none a k cb = M.map (mkBoundCall cb a k) := by
  constructor
  · rw [emit_ok_of_normal st E a k _ hLk hNorm]
    simp
  · intro cb cn fn cls M hsp hcl hst hin
    exact eventsOf_events (dispatchOne_bound_enrolled a k hsp hcl hst hin)

/-- Witness for C4: `g`, then static `W.s`, then bound `W.m` over `w1, w2`. -/
theorem emit_registration_order_witness :
    lookupKey stOrder.callbacks "tick" = some [freeG, cbWs, cbWm] ∧
    emit stOrder "tick" [Val.obj 5] []
      = .ok (eventsOf stOrder none [Val.obj 5] [] freeG
          ++ eventsOf stOrder none [Val.obj 5] [] cbWs
          ++ eventsOf stOrder none [Val.obj 5] [] cbWm) :=
  ⟨by decide,
    (emit_registration_order stOrder "tick" [Val.obj 5] [] freeG cbWs cbWm
      (by decide) (by decide)).1⟩

/-- Claim C5: an emit through `emit_instances` with an explicit instance
list invokes a Bound callback (registered once) exactly once per supplied
instance, in the list's order, and no invocation of that callback receives
an instance outside the supplied list — enrolled instances not in the list
are excluded. -/
theorem emit_instances_targets_supplied_only
    (st : EmitterState) (E : String) (a : List Val) (k : List (String × Val))
    (cbs : List PyObj) (cb : PyObj) (cn fn : String) (cls : PyClass)
    (L : List Inst)
    (hLk : lookupKey st.callbacks E = some cbs)
    (hNorm : ∀ c ∈ cbs, (dispatchOne st (some L) a k c).isEvents = true)
    (hSplit : pySplitDot cb.qualname = [cn, fn])
    (hCls : lookupKey st.classes cn = some cls)
    (hStat : is_static_method cls fn = false)
    (hOnce : cbs.count cb = 1) :
    ∃ tr, emit_instances st E L a k = .ok tr ∧
      tr.filter (fun ev => ev.cb == cb) = L.map (mkBoundCall cb a k) ∧
      ∀ i : Inst, i ∉ L → ∀ ev ∈ tr, ev.cb = cb →
        ev.posArgs.head? ≠ some (Val.inst i) := by
  have hfil : (cbs.flatMap (eventsOf st (some L) a k)).filter (fun ev => ev.cb == cb)
      = L.map (mkBoundCall cb a k) := by
    rw [filter_flatMap_owner _ cb (fun c ev hev => cb_of_mem_eventsOf ev hev) cbs,
      hOnce, eventsOf_events (dispatchOne_bound_explicit L a k hSplit hCls hStat)]
    simp
  refine ⟨cbs.flatMap (eventsOf st (some L) a k), ?_, hfil, ?_⟩
  · unfold emit_instances _emit
    rw [hLk]
    exact emitAux_ok st (some L) a k cbs hNorm
  · intro i hi ev hev hcb hhead
    have hmem : ev ∈ (cbs.flatMap (eventsOf st (some L) a k)).filter
        (fun ev => ev.cb == cb) := by
      rw [List.mem_filter]
      exact ⟨hev, by simp [hcb]⟩
    rw [hfil] at hmem
    obtain ⟨j, hj, hje⟩ := List.mem_map.mp hmem
    rw [← hje] at hhead
    simp only [mkBoundCall, List.head?_cons, Option.some.injEq, Val.inst.injEq] at hhead
    exact hi (hhead ▸ hj)

/-- Witness for C5: `emitTo`-style narrow emit at `[w2]` calls `W.m` only
on `w2`; `w1` stays enrolled but is excluded. -/
theorem emit_instances_targets_supplied_only_witness :
    lookupKey stOrder.callbacks "tick" = some [freeG, cbWs, cbWm] ∧
    [freeG, cbWs, cbWm].count cbWm = 1 ∧
    ∃ tr, emit_instances stOrder "tick" [w2] [Val.obj 5] [] = .ok tr ∧
      tr.filter (fun ev => ev.cb == cbWm)
        = [w2].map (mkBoundCall cbWm [Val.obj 5] []) ∧
      ∀ i : Inst, i ∉ [w2] → ∀ ev ∈ tr, ev.cb = cbWm →
        ev.posArgs.head? ≠ some (Val.inst i) :=
  ⟨by decide, by decide,
    emit_instances_targets_supplied_only stOrder "tick" [Val.obj 5] []
      [freeG, cbWs, cbWm] cbWm "W" "m" classW [w2]
      (by decide) (by decide) (by decide) (by decide) (by decide) (by decide)⟩

/-- Claim C6: `off(E, C)` raises `KeyError` when `E` is unknown and
`ValueError` when `C` is not registered under `E` (the source's concrete
`NotFoundError`s); on success it removes exactly the first occurrence of
`C`, deletes the event key entirely when the list becomes empty, and a
subsequent emit of `E` (with `C` Unbound and everything dispatching
normally) invokes `C` one time fewer than the registered occurrences
before the `off`. -/
theorem off_contract
    (st : EmitterState) (E : String) (cb : PyObj)
    (hnd : (st.callbacks.map Prod.fst).Nodup) :
    (lookupKey st.callbacks E = none → off st E cb = .error .keyError) ∧
    (∀ lst, lookupKey st.callbacks E = some lst → cb ∉ lst →
      off st E cb = .error .valueError) ∧
    (∀ lst, lookupKey st.callbacks E = some lst → cb ∈ lst →
      ∃ st', off st E cb = .ok st' ∧
        lookupKey st'.callbacks E
          = (if lst.erase cb = [] then none else some (lst.erase cb)) ∧
        (lst.erase cb).count cb = lst.count cb - 1 ∧
        ∀ a k, isUnbound st' cb = true →
          (∀ c ∈ lst.erase cb, (dispatchOne st' none a k c).isEvents = true) →
          ∃ tr, emit st' E a k = .ok tr ∧
            (tr.filter (fun ev => ev.cb == cb)).length = lst.count cb - 1) := by
  refine ⟨?_, ?_, ?_⟩
  · intro h
    simp [off, h]
  · intro lst h hm
    simp [off, h, hm]
  · intro lst h hm
    by_cases hnil : lst.erase cb = []
    · have hsingle : lst = [cb] := eq_singleton_of_erase_eq_nil hm hnil
      refine ⟨⟨eraseKey st.callbacks E, st.instances, st.classes⟩, ?_, ?_,
        List.count_erase_self cb lst, ?_⟩
      · simp [off, h, hm, hnil]
      · rw [if_pos hnil]
        exact lookupKey_eraseKey_self hnd
      · intro a k hub hnorm
        refine ⟨[], ?_, by simp [hsingle]⟩
        exact emit_unknown_event _ E a k (lookupKey_eraseKey_self hnd)
    · refine ⟨⟨setKey st.callbacks E (lst.erase cb), st.instances, st.classes⟩, ?_, ?_,
        List.count_erase_self cb lst, ?_⟩
      · simp [off, h, hm, hnil]
      · rw [if_neg hnil]
        exact lookupKey_setKey_self _ _ _
      · intro a k hub hnorm
        refine ⟨(lst.erase cb).flatMap
            (eventsOf ⟨setKey st.callbacks E (lst.erase cb), st.instances, st.classes⟩ none a k),
          ?_, ?_⟩
        · exact emit_ok_of_normal _ E a k _ (lookupKey_setKey_self _ _ _) hnorm
        · rw [filter_flatMap_owner _ cb (fun c ev hev => cb_of_mem_eventsOf ev hev) _,
            eventsOf_events (dispatchOne_unbound none a k hub),
            flatten_replicate_singleton, List.length_replicate,
            List.count_erase_self]

/-- State with two free functions registered under one event. -/
def stOffPair : EmitterState := ⟨[("evt", [freeG, freeH])], [], []⟩

/-- Witness for C6 at a concrete two-callback state. -/
theorem off_contract_witness :
    (stOffPair.callbacks.map Prod.fst).Nodup ∧
    lookupKey stOffPair.callbacks "evt" = some [freeG, freeH] ∧
    freeG ∈ [freeG, freeH] ∧
    ∃ st', off stOffPair "evt" freeG = .ok st' ∧
      lookupKey st'.callbacks "evt"
        = (if [freeG, freeH].erase freeG = [] then none
           else some ([freeG, freeH].erase freeG)) ∧
      ([freeG, freeH].erase freeG).count freeG = [freeG, freeH].count freeG - 1 ∧
      ∀ a k, isUnbound st' freeG = true →
        (∀ c ∈ [freeG, freeH].erase freeG,
          (dispatchOne st' none a k c).isEvents = true) →
        ∃ tr, emit st' "evt" a k = .ok tr ∧
          (tr.filter (fun ev => ev.cb == freeG)).length
            = [freeG, freeH].count freeG - 1 :=
  ⟨by decide, by decide, by decide,
    (off_contract stOffPair "evt" freeG (by decide)).2.2 [freeG, freeH]
      (by decide) (by decide)⟩

/-- Claim C7: after any sequence of `on`/`off` operations on a fresh
emitter, the Callback Registry never maps an event key to an empty
callback list. -/
theorem registry_no_empty_event_lists (ops : List RegOp) :
    noEmptyEventLists (applyOps init ops) := by
  have main : ∀ (l : List RegOp) (s : EmitterState),
      noEmptyEventLists s → noEmptyEventLists (applyOps s l) := by
    intro l
    induction l with
    | nil => exact fun _ h => h
    | cons op rest ih => exact fun s h => ih _ (applyOp_no_empty s op h)
  exact main ops init fun p hp => absurd hp (List.not_mem_nil p)

/-- Witness for C10 at the concrete nested-function fixture. -/
theorem emit_nested_qualname_raises_witness :
    lookupKey stNested.callbacks "evt" = some ([] ++ cbNested :: []) ∧
    2 < (pySplitDot cbNested.qualname).length ∧
    emit stNested "evt" [] [] = .error .valueError :=
  ⟨by decide, by decide,
    emit_nested_qualname_raises stNested "evt" [] [] [] [] cbNested
      (by decide) (by decide) (by decide)⟩
